import Mathlib

/-!
Verification of the Fidelity ETF scraper (RequestDelayer.py, database.py,
fidelity.py) against its specification.  The Python code is shallowly
embedded: stateful code becomes explicit state passing, SQLite tables become
lists of records, wall-clock time becomes a rational-number parameter, and
fallible code returns `Except`/`Option`.
-/

namespace Fidelity

/-! ## RequestDelayer.py

`RequestDelayer.delayRequest` wraps an action.  The wrapper body runs under
`self.delayLock`, so across all threads the bodies execute in some serial
order; we model one execution of the body as a step on the recorded
`lastRequest` timestamp.  `current` is the value `time.time()` returned when
the body started.  The step returns the start time of the wrapped action
(the moment the body finishes its sleep, i.e. the wake-up target
`current + wait` when it slept, `current` otherwise) together with the new
`lastRequest` value, exactly as lines 22-28 of RequestDelayer.py compute
them. -/

/-- One execution of the `delayRequest` wrapper body.
Input: configured `delay`, stored `lastRequest`, the sampled clock value
`current`.  Output: (start time of the wrapped action, new `lastRequest`). -/
def delayStep (delay lastRequest current : ℚ) : ℚ × ℚ :=
  let wait := lastRequest + delay - current
  if 0 < wait then
    (current + wait, current + wait)
  else
    (current, current)

/-- Serial execution of the wrapper for a list of sampled clock values,
returning the list of action start times. -/
def runDelayer (delay : ℚ) : ℚ → List ℚ → List ℚ
  | _, [] => []
  | lastRequest, c :: cs =>
    let p := delayStep delay lastRequest c
    p.1 :: runDelayer delay p.2 cs

/-! ## database.py

The two SQLite tables.  `fundID INTEGER PRIMARY KEY ASC` is a rowid alias
that SQLite assigns as (largest existing rowid) + 1; `fundLookup` is
`UNIQUE`; the `dollarChanges.fundID` column is declared with a `REFERENCES`
clause but *no* `NOT NULL`, and the `sqlite3` module leaves
`PRAGMA foreign_keys` at its default OFF, so a row whose fund reference is
NULL (or dangling) is accepted.  Dates are stored as ISO `YYYY-MM-DD`
strings; for valid dates their string order is the lexicographic order of
the (year, month, day) triple, so we embed dates as that triple. -/

structure Date where
  year : ℕ
  month : ℕ
  day : ℕ
deriving DecidableEq

/-- ISO-string comparison `a <= b`, i.e. lexicographic on (year, month, day). -/
def Date.leB (a b : Date) : Bool :=
  Nat.blt a.year b.year ||
    (a.year == b.year &&
      (Nat.blt a.month b.month ||
        (a.month == b.month && Nat.ble a.day b.day)))

/-- ISO-string comparison `a < b`. -/
def Date.ltB (a b : Date) : Bool :=
  Nat.blt a.year b.year ||
    (a.year == b.year &&
      (Nat.blt a.month b.month ||
        (a.month == b.month && Nat.blt a.day b.day)))

def isLeap (y : ℕ) : Bool :=
  y % 4 == 0 && (!(y % 100 == 0) || y % 400 == 0)

def daysInMonth (y m : ℕ) : ℕ :=
  if m == 2 then (if isLeap y then 29 else 28)
  else if m == 4 || m == 6 || m == 9 || m == 11 then 30
  else 31

/-- fidelity.py `incrementDate`: advance a date by one day
(`datetime.timedelta(days=1)` on the Gregorian calendar). -/
def incrementDate (d : Date) : Date :=
  if d.day < daysInMonth d.year d.month then ⟨d.year, d.month, d.day + 1⟩
  else if d.month < 12 then ⟨d.year, d.month + 1, 1⟩
  else ⟨d.year + 1, 1, 1⟩

/-- SQLite `date(d, '-1 year')`: decrement the year; the only possible
overflow, Feb 29 of a leap year mapped to a non-leap year, is normalized by
SQLite to Mar 01. -/
def subOneYear (d : Date) : Date :=
  if d.month == 2 && d.day == 29 && !isLeap (d.year - 1) then
    ⟨d.year - 1, 3, 1⟩
  else
    ⟨d.year - 1, d.month, d.day⟩

/-- A row of the `funds` table. -/
structure Fund where
  fundID : ℕ
  fundName : String
  fundLookup : String
deriving DecidableEq

/-- A row of the `dollarChanges` table (the `dollarChangeID` rowid is never
queried; list position plays its role).  `fundID` is `Option` because the
column is nullable. -/
structure ChangeRow where
  date : Date
  fundID : Option ℕ
  dollarChange : ℤ
deriving DecidableEq

structure FidelityDB where
  funds : List Fund
  dollarChanges : List ChangeRow
deriving DecidableEq

/-- `(SELECT fundID FROM funds WHERE fundLookup = ?)`: a scalar subquery,
NULL (`none`) when no row matches. -/
def lookupFundID (db : FidelityDB) (fundLookup : String) : Option ℕ :=
  (db.funds.find? (fun f => f.fundLookup == fundLookup)).map Fund.fundID

/-- Rowid SQLite assigns to the next inserted `funds` row. -/
def nextFundID (db : FidelityDB) : ℕ :=
  db.funds.foldl (fun m f => max m f.fundID) 0 + 1

/-- `FidelityDB.insertOrIgnoreFund`: `INSERT OR IGNORE` into `funds`; a
conflict on the `UNIQUE` `fundLookup` column makes the statement a no-op. -/
def insertOrIgnoreFund (db : FidelityDB) (fundName fundLookup : String) :
    FidelityDB :=
  if db.funds.any (fun f => f.fundLookup == fundLookup) then db
  else { db with funds := db.funds ++ [⟨nextFundID db, fundName, fundLookup⟩] }

/-- `FidelityDB.insertOrIgnoreFunds`: `executemany` of the same statement
over a list of (fundName, fundLookup) pairs. -/
def insertOrIgnoreFunds (db : FidelityDB) (funds : List (String × String)) :
    FidelityDB :=
  funds.foldl (fun d p => insertOrIgnoreFund d p.1 p.2) db

/-- `FidelityDB.insertDollarChange`: inserts one `dollarChanges` row.  A
`none` date means the Python default `date=None`, for which the SQL uses
`date("now", "localtime")`, here the parameter `now`.  The fund reference is
resolved by the scalar subquery `lookupFundID`; since the column is nullable
and foreign keys are not enforced, the insert succeeds (the function is
total) even when resolution yields `none`. -/
def insertDollarChange (db : FidelityDB) (fundLookup : String)
    (dollarChange : ℤ) (date : Option Date) (now : Date) : FidelityDB :=
  { db with
      dollarChanges :=
        db.dollarChanges ++
          [⟨date.getD now, lookupFundID db fundLookup, dollarChange⟩] }

/-- The module-level constant `INTERVAL = "-1 year"` of database.py. -/
def INTERVAL : String := "-1 year"

/-- `FidelityDB.getIntervalToDate`: the SQL string is
`SELECT date("now", "{}")` with the *global* `INTERVAL` (`"-1 year"`)
formatted in; the `interval` argument is bound but never referenced, so the
result is always `date('now', '-1 year')`. -/
def getIntervalToDate (interval : String) (now : Date) : Date :=
  subOneYear now

/-- Row predicate of the query's date window:
`date >= date("now", "-1 year") AND date <= date("now")`. -/
def rowInQueryWindow (now : Date) (r : ChangeRow) : Bool :=
  Date.leB (subOneYear now) r.date && Date.leB r.date now

/-- `FidelityDB.getDollarChangesIntervalToDateByFund`: the SQL string
contains no placeholder for the `interval` argument (its `"-1 year"` window
is written literally, and the trailing `.format(INTERVAL)` finds no braces),
so `interval` is unused.  `WHERE fundID = (subquery)` is NULL — hence
selects nothing — when the subquery yields NULL, and `ORDER BY date ASC`
sorts by the date column (modelled by an insertion sort; any total weak
ordering by date is a correct model since SQLite fixes no tie order). -/
def getDollarChangesIntervalToDateByFund (db : FidelityDB) (now : Date)
    (interval fundLookup : String) : List (Date × ℤ) :=
  let rows := db.dollarChanges.filter fun r =>
    (match lookupFundID db fundLookup with
     | some fid => r.fundID == some fid
     | none => false) && rowInQueryWindow now r
  (rows.insertionSort fun a b => Date.leB a.date b.date = true).map
    fun r => (r.date, r.dollarChange)

/-! ## fidelity.py -/

def MAX_RETRIES : ℕ := 3

/-- `MONTH_NAME_TO_NUM` of fidelity.py. -/
def MONTH_NAME_TO_NUM : List (String × String) :=
  [("Jan", "01"), ("Feb", "02"), ("Mar", "03"), ("Apr", "04"),
   ("May", "05"), ("Jun", "06"), ("Jul", "07"), ("Aug", "08"),
   ("Sep", "09"), ("Oct", "10"), ("Nov", "11"), ("Dec", "12")]

/-- Python `s.split("-")` on the character list of `s`. -/
def splitDash : List Char → List Char → List (List Char)
  | acc, [] => [acc.reverse]
  | acc, c :: cs =>
    if c = '-' then acc.reverse :: splitDash [] cs
    else splitDash (c :: acc) cs

/-- `fidelityDateToYYYY_MM_DD`: `day, month, year = fidelityDate.split("-")`
then `MONTH_NAME_TO_NUM[month]`.  `none` models the Python exceptions
(ValueError on a split of arity ≠ 3, KeyError on an unknown month name). -/
def fidelityDateToYYYY_MM_DD (fidelityDate : String) : Option String :=
  match splitDash [] fidelityDate.data with
  | [day, month, year] =>
    (MONTH_NAME_TO_NUM.find? fun p => p.1 == String.mk month).map fun p =>
      String.mk (year ++ '-' :: p.2.data ++ '-' :: day)
  | _ => none

inductive SessionError where
  /-- `CannotFindDateError`: the date element never rendered. -/
  | cannotFindDate
  /-- `DifferentDateError(fidelityDate, todayDate)`. -/
  | differentDate (fidelityDate todayDate : String)
  /-- An exception `FidelityScraper.__init__` does not raise itself and
  `main` does not catch (e.g. KeyError from the month table). -/
  | scriptError
deriving DecidableEq

/-- The date-validation part of `FidelityScraper.__init__` (lines 106-113):
convert the scraped `AG_price_date` text and compare with `TODAY`;
a mismatch raises `DifferentDateError`. -/
def scraperInitDateCheck (priceDateRaw today : String) :
    Except SessionError String :=
  match fidelityDateToYYYY_MM_DD priceDateRaw with
  | none => .error .scriptError
  | some pd => if pd ≠ today then .error (.differentDate pd today) else .ok pd

/-- What `main` has done when the `FidelityScraper()` construction is
resolved: either `sys.exit` with a code, or proceed with the session.  The
`FidelityDB` object is only constructed *after* the whole fetch loop
(line 208), so on the two handled error exits no database write has
occurred; the empty write list records that. -/
inductive SessionPhase where
  | exited (code : ℤ) (dbWrites : List ChangeRow)
  | proceed (priceDate : String)
deriving DecidableEq

/-- Lines 157-175 of fidelity.py: construct the scraper (with the given
scraped date text and wall-clock date), dispatch on the two handled
errors (`sys.exit(-2)` / `sys.exit(-3)`), otherwise continue the run. -/
def mainSessionPhase (priceDateRaw today : String) : SessionPhase :=
  match scraperInitDateCheck priceDateRaw today with
  | .error .cannotFindDate => .exited (-2) []
  | .error (.differentDate _ _) => .exited (-3) []
  | .error .scriptError => .exited 1 []
  | .ok pd => .proceed pd

/-- One attempt of `FidelityScraper.getFundDollarChange`, as observed by the
retry loop in `main`: it returns a scaled integer, raises
`CannotMatchFundError`, or raises some other exception. -/
inductive FetchOutcome where
  | success (v : ℤ)
  | mismatch
  | failure
deriving DecidableEq

/-- Result of `main`'s per-fund `for tries in range(MAX_RETRIES)` loop. -/
inductive PerFundResult where
  /-- some attempt returned `v`; `dollarChanges[lookupID] = v`, `break`. -/
  | recorded (v : ℤ)
  /-- `CannotMatchFundError` on the last attempt: the error message is
  written to stderr and the loop falls through; the run continues. -/
  | mismatchExhausted
  /-- another exception on the last attempt: `raise e`, aborting the run. -/
  | fatal
  /-- the loop body never ran (only possible with a zero retry ceiling). -/
  | noAttempt
deriving DecidableEq

/-- The body of the retry loop from iteration `tries`, with `remaining`
iterations (including this one) left.  `tries + 1 < MAX_RETRIES` in the
Python handlers is exactly `remaining ≠ 1`, i.e. `0 < remaining - 1`. -/
def retryGo (oracle : ℕ → FetchOutcome) (tries : ℕ) :
    ℕ → PerFundResult
  | 0 => .noAttempt
  | remaining + 1 =>
    match oracle tries with
    | .success v => .recorded v
    | .mismatch =>
      if remaining = 0 then .mismatchExhausted
      else retryGo oracle (tries + 1) remaining
    | .failure =>
      if remaining = 0 then .fatal
      else retryGo oracle (tries + 1) remaining

/-- The whole per-fund retry loop (`for tries in range(MAX_RETRIES)`),
where `oracle i` is what attempt `i` of `getFundDollarChange` does. -/
def retryFund (oracle : ℕ → FetchOutcome) : PerFundResult :=
  retryGo oracle 0 MAX_RETRIES

/-- `main`'s fetch loop over the manifest funds (lines 177-203).  Returns
`.error ()` when an unclassified failure exhausts the ceiling and is
re-raised — the run aborts and *nothing* is persisted, since all database
writes happen after the loop.  Otherwise returns the `dollarChanges`
mapping in manifest order together with the `CannotMatchFundError` messages
reported to stderr (identified by their lookup code), in report order. -/
def runFunds (oracles : String → ℕ → FetchOutcome) :
    List String → Except Unit (List (String × ℤ) × List String)
  | [] => .ok ([], [])
  | c :: rest =>
    match retryFund (oracles c) with
    | .recorded v =>
      match runFunds oracles rest with
      | .ok (res, errs) => .ok ((c, v) :: res, errs)
      | .error e => .error e
    | .mismatchExhausted =>
      match runFunds oracles rest with
      | .ok (res, errs) => .ok (res, c :: errs)
      | .error e => .error e
    | .fatal => .error ()
    | .noAttempt => runFunds oracles rest

/-! ### The report writer (lines 214-235)

`data` is the in-memory dictionary `main` builds from the per-fund range
queries: for each lookup code, a date-keyed dictionary.  A Python dict
comprehension keeps the *last* value for a repeated date, hence the
`reverse` in the lookup.  A report cell is `some v` where the code writes
the rendered value `str(v'/SIGNIFICANT_DIGITS_MULTIPLIER)` and `none` where
the dict lookup raises and the code appends `""`. -/

abbrev FundData : Type := List (String × List (Date × ℤ))

/-- `data[lookupID][d]`, `none` when either key is missing. -/
def dataCell (data : FundData) (lookupID : String) (d : Date) : Option ℤ :=
  (List.find? (fun p => p.1 == lookupID) data).bind fun p =>
    (p.2.reverse.find? fun q => q.1 == d).map Prod.snd

/-- The `temp` list of one loop iteration: one cell per manifest fund, in
manifest order. -/
def reportRow (fundIDs : List String) (data : FundData) (d : Date) :
    List (Option ℤ) :=
  fundIDs.map fun id => dataCell data id d

/-- `isRecordForDate`: some cell of the row is present. -/
def isRecordForDate (fundIDs : List String) (data : FundData) (d : Date) :
    Bool :=
  fundIDs.any fun id => (dataCell data id d).isSome

/-- The `while intervalDate <= TODAY` loop: emit a row for the current date
only `if isRecordForDate`, then `incrementDate`.  The loop advances the
date strictly each iteration; `fuel` bounds the number of iterations (any
fuel at least the number of days in the window gives the full run). -/
def reportLoop (fundIDs : List String) (data : FundData) (today : Date) :
    ℕ → Date → List (Date × List (Option ℤ))
  | 0, _ => []
  | fuel + 1, d =>
    if Date.leB d today then
      (if isRecordForDate fundIDs data d then [(d, reportRow fundIDs data d)]
       else []) ++ reportLoop fundIDs data today fuel (incrementDate d)
    else []

/-- The calendar days the loop ranges over: `d`, `incrementDate d`, ... up
to `today`, cut off by `fuel`. -/
def daysUpTo (today : Date) : ℕ → Date → List Date
  | 0, _ => []
  | fuel + 1, d =>
    if Date.leB d today then d :: daysUpTo today fuel (incrementDate d)
    else []

/-! ## Theorems -/

theorem delayStep_snd_eq_fst (delay l c : ℚ) :
    (delayStep delay l c).2 = (delayStep delay l c).1 := by
  simp only [delayStep]
  split <;> rfl

theorem delayStep_fst_ge (delay l c : ℚ) :
    l + delay ≤ (delayStep delay l c).1 := by
  simp only [delayStep]
  split
  · simp only
    linarith
  · simp only
    linarith [not_lt.mp (by assumption : ¬ 0 < l + delay - c)]

theorem runDelayer_head_ge (delay l : ℚ) (cs : List ℚ) (s : ℚ)
    (h : s ∈ (runDelayer delay l cs).head?) : l + delay ≤ s := by
  cases cs with
  | nil => simp [runDelayer] at h
  | cons c cs =>
    simp only [runDelayer, Option.mem_def, List.head?_cons, Option.some.injEq] at h
    exact h ▸ delayStep_fst_ge delay l c

theorem runDelayer_chain (delay : ℚ) :
    ∀ (l : ℚ) (cs : List ℚ),
      List.Chain' (fun a b => a + delay ≤ b) (runDelayer delay l cs)
  | _, [] => List.chain'_nil
  | l, c :: cs => by
    simp only [runDelayer]
    rw [List.chain'_cons']
    refine ⟨fun y hy => ?_, runDelayer_chain delay _ cs⟩
    have := runDelayer_head_ge delay (delayStep delay l c).2 cs y hy
    rwa [delayStep_snd_eq_fst] at this

/-- C1: under the serializing lock, successive starts of the wrapped action
are at least `delay` apart for every sequence of sampled clock values, and
a call that slept records `lastRequest` as the previous `lastRequest` plus
`delay` (its wake-up target), not as the time the sleep finished. -/
theorem delayRequest_spacing_and_bookkeeping
    (delay lastRequest current : ℚ) (currents : List ℚ) :
    List.Chain' (fun a b => a + delay ≤ b)
        (runDelayer delay lastRequest currents) ∧
    (0 < lastRequest + delay - current →
      (delayStep delay lastRequest current).2 = lastRequest + delay) := by
  refine ⟨runDelayer_chain delay lastRequest currents, fun h => ?_⟩
  simp only [delayStep, if_pos h]
  ring

/-- Witness for C1: delay 3 starting from `lastRequest = 0` with clock
samples 1, 2, 10; the second sample forces a sleep. -/
theorem delayRequest_spacing_and_bookkeeping_witness :
    List.Chain' (fun a b => a + (3 : ℚ) ≤ b) (runDelayer 3 0 [1, 2, 10]) ∧
    (delayStep 3 0 1).2 = 0 + 3 :=
  ⟨(delayRequest_spacing_and_bookkeeping 3 0 1 [1, 2, 10]).1,
   (delayRequest_spacing_and_bookkeeping 3 0 1 [1, 2, 10]).2 (by norm_num)⟩

/-- A sample store: one registered fund. -/
def sampleDB : FidelityDB := ⟨[⟨1, "Fund A", "AAA"⟩], []⟩

def sampleDate : Date := ⟨2021, 9, 5⟩

/-- C2: inserting a daily change for a lookup code absent from the `funds`
table is not rejected and surfaces no error: the call returns normally,
appending a `dollarChanges` row whose fund reference is NULL. -/
theorem insertDollarChange_unknown_lookup (db : FidelityDB) (c : String)
    (delta : ℤ) (d now : Date)
    (h : ∀ f ∈ db.funds, f.fundLookup ≠ c) :
    insertDollarChange db c delta (some d) now =
      { db with dollarChanges := db.dollarChanges ++ [⟨d, none, delta⟩] } := by
  have hfind : db.funds.find? (fun f => f.fundLookup == c) = none := by
    rw [List.find?_eq_none]
    intro f hf
    simpa using h f hf
  have hl : lookupFundID db c = none := by
    rw [lookupFundID, hfind]
    rfl
  simp [insertDollarChange, hl]

/-- Witness for C2: inserting for the unregistered code "BBB". -/
theorem insertDollarChange_unknown_lookup_witness :
    (∀ f ∈ sampleDB.funds, f.fundLookup ≠ "BBB") ∧
    insertDollarChange sampleDB "BBB" 5 (some sampleDate) sampleDate =
      { sampleDB with
          dollarChanges := sampleDB.dollarChanges ++ [⟨sampleDate, none, 5⟩] } :=
  ⟨by decide,
   insertDollarChange_unknown_lookup sampleDB "BBB" 5 sampleDate sampleDate
     (by decide)⟩

/-- C5: registering one (name, lookupCode) pair is idempotent — after it has
been registered once, registering it again leaves the store unchanged. -/
theorem insertOrIgnoreFunds_pair_idempotent (db : FidelityDB) (n c : String) :
    insertOrIgnoreFunds (insertOrIgnoreFunds db [(n, c)]) [(n, c)] =
      insertOrIgnoreFunds db [(n, c)] := by
  simp only [insertOrIgnoreFunds, List.foldl_cons, List.foldl_nil]
  by_cases h : db.funds.any (fun f => f.fundLookup == c)
  · simp [insertOrIgnoreFund, h]
  · simp [insertOrIgnoreFund, h]

/-- C10: fund registration is first-write-wins on the name: when lookup code
`c` is already registered (by some fund row `f`, whatever its name),
inserting `(n', c)` for any name `n'` leaves the store completely
unchanged. -/
theorem insertOrIgnoreFund_first_write_wins (db : FidelityDB)
    (n' c : String) (f : Fund) (hf : f ∈ db.funds) (hc : f.fundLookup = c) :
    insertOrIgnoreFund db n' c = db ∧ insertOrIgnoreFunds db [(n', c)] = db := by
  have h : db.funds.any (fun g => g.fundLookup == c) = true :=
    List.any_eq_true.mpr ⟨f, hf, by simp [hc]⟩
  constructor
  · unfold insertOrIgnoreFund
    rw [h]
    simp
  · show insertOrIgnoreFund db n' c = db
    unfold insertOrIgnoreFund
    rw [h]
    simp

/-- Witness for C10: "AAA" is registered under the name "Fund A"; inserting
it again under the different name "Fund B" changes nothing. -/
theorem insertOrIgnoreFund_first_write_wins_witness :
    ⟨1, "Fund A", "AAA"⟩ ∈ sampleDB.funds ∧
    insertOrIgnoreFund sampleDB "Fund B" "AAA" = sampleDB ∧
    insertOrIgnoreFunds sampleDB [("Fund B", "AAA")] = sampleDB :=
  ⟨by decide,
   insertOrIgnoreFund_first_write_wins sampleDB "Fund B" "AAA"
     ⟨1, "Fund A", "AAA"⟩ (by decide) rfl⟩

theorem Date.leB_total (a b : Date) :
    Date.leB a b = true ∨ Date.leB b a = true := by
  simp only [Date.leB, Bool.or_eq_true, Bool.and_eq_true, Nat.blt_eq,
    Nat.ble_eq, beq_iff_eq]
  omega

theorem Date.leB_trans (a b c : Date) (hab : Date.leB a b = true)
    (hbc : Date.leB b c = true) : Date.leB a c = true := by
  simp only [Date.leB, Bool.or_eq_true, Bool.and_eq_true, Nat.blt_eq,
    Nat.ble_eq, beq_iff_eq] at hab hbc ⊢
  omega

instance : IsTotal ChangeRow (fun a b => Date.leB a.date b.date = true) :=
  ⟨fun a b => Date.leB_total a.date b.date⟩

instance : IsTrans ChangeRow (fun a b => Date.leB a.date b.date = true) :=
  ⟨fun a b c => Date.leB_trans a.date b.date c.date⟩

/-- C3 (amended): for a registered fund the range query returns pairs
*weakly* ordered ascending by date (duplicate rows for one date are
returned with equal dates, so the order cannot be strict in general),
restricted to the window from `date('now','-1 year')` to `date('now')`,
and the caller-supplied interval argument has no effect on the result. -/
theorem rangeQuery_sorted_window_hardcoded (db : FidelityDB) (now : Date)
    (interval interval' fundLookup : String)
    (hreg : (lookupFundID db fundLookup).isSome) :
    List.Pairwise (fun p q : Date × ℤ => Date.leB p.1 q.1 = true)
        (getDollarChangesIntervalToDateByFund db now interval fundLookup) ∧
    (∀ p ∈ getDollarChangesIntervalToDateByFund db now interval fundLookup,
        Date.leB (subOneYear now) p.1 = true ∧ Date.leB p.1 now = true) ∧
    getDollarChangesIntervalToDateByFund db now interval fundLookup =
      getDollarChangesIntervalToDateByFund db now interval' fundLookup := by
  refine ⟨?_, ?_, rfl⟩
  · rw [getDollarChangesIntervalToDateByFund, List.pairwise_map]
    exact List.sorted_insertionSort
      (fun a b : ChangeRow => Date.leB a.date b.date = true) _
  · intro p hp
    rw [getDollarChangesIntervalToDateByFund] at hp
    simp only [List.mem_map, List.mem_insertionSort, List.mem_filter,
      Bool.and_eq_true] at hp
    obtain ⟨r, ⟨_, _, hw⟩, hpr⟩ := hp
    rw [rowInQueryWindow, Bool.and_eq_true] at hw
    exact hpr ▸ hw

/-- Witness for C3: the query over `sampleDB` extended with one in-window
row for the registered fund "AAA". -/
theorem rangeQuery_sorted_window_hardcoded_witness :
    (lookupFundID { sampleDB with
        dollarChanges := [⟨⟨2021, 9, 4⟩, some 1, 5⟩] } "AAA").isSome ∧
    (List.Pairwise (fun p q : Date × ℤ => Date.leB p.1 q.1 = true)
        (getDollarChangesIntervalToDateByFund
          { sampleDB with dollarChanges := [⟨⟨2021, 9, 4⟩, some 1, 5⟩] }
          sampleDate "-1 year" "AAA") ∧
    (∀ p ∈ getDollarChangesIntervalToDateByFund
          { sampleDB with dollarChanges := [⟨⟨2021, 9, 4⟩, some 1, 5⟩] }
          sampleDate "-1 year" "AAA",
        Date.leB (subOneYear sampleDate) p.1 = true ∧
          Date.leB p.1 sampleDate = true) ∧
    getDollarChangesIntervalToDateByFund
        { sampleDB with dollarChanges := [⟨⟨2021, 9, 4⟩, some 1, 5⟩] }
        sampleDate "-1 year" "AAA" =
      getDollarChangesIntervalToDateByFund
        { sampleDB with dollarChanges := [⟨⟨2021, 9, 4⟩, some 1, 5⟩] }
        sampleDate "-6 months" "AAA") :=
  ⟨by decide,
   rangeQuery_sorted_window_hardcoded
     { sampleDB with dollarChanges := [⟨⟨2021, 9, 4⟩, some 1, 5⟩] }
     sampleDate "-1 year" "-6 months" "AAA" (by decide)⟩

/-- A store holding two rows for the same fund and the same date (the
schema does not enforce one row per (fund, date); re-running ingestion for
a day produces exactly this). -/
def dupDB : FidelityDB :=
  ⟨[⟨1, "Fund A", "AAA"⟩],
   [⟨⟨2021, 9, 5⟩, some 1, 5⟩, ⟨⟨2021, 9, 5⟩, some 1, 7⟩]⟩

/-- Counterexample to C3 as stated: on a store with two rows for the same
date the query returns two pairs with equal dates, so the result is not
*strictly* ordered ascending by date. -/
theorem rangeQuery_not_strictly_sorted :
    getDollarChangesIntervalToDateByFund dupDB ⟨2021, 9, 5⟩ "-1 year" "AAA" =
      [(⟨2021, 9, 5⟩, 5), (⟨2021, 9, 5⟩, 7)] ∧
    ¬ List.Pairwise (fun p q : Date × ℤ => Date.ltB p.1 q.1 = true)
        (getDollarChangesIntervalToDateByFund dupDB ⟨2021, 9, 5⟩
          "-1 year" "AAA") := by
  constructor
  · rfl
  · intro hpw
    have := List.rel_of_pairwise_cons
      (show List.Pairwise (fun p q : Date × ℤ => Date.ltB p.1 q.1 = true)
          ((⟨⟨2021, 9, 5⟩, 5⟩ : Date × ℤ) :: [(⟨⟨2021, 9, 5⟩, 7⟩ : Date × ℤ)])
        from hpw)
      (List.mem_singleton.mpr rfl)
    simp [Date.ltB] at this

/-- C4: inserting a delta for a registered lookup code at a date inside the
trailing window, then running the range query for that fund, yields a
result containing exactly the pair (date, delta). -/
theorem insert_then_rangeQuery_roundtrip (db : FidelityDB) (now d : Date)
    (c interval : String) (delta : ℤ) (fid : ℕ)
    (hreg : lookupFundID db c = some fid)
    (hlo : Date.leB (subOneYear now) d = true)
    (hhi : Date.leB d now = true) :
    (d, delta) ∈ getDollarChangesIntervalToDateByFund
        (insertDollarChange db c delta (some d) now) now interval c := by
  have hl2 : lookupFundID (insertDollarChange db c delta (some d) now) c =
      some fid := hreg
  rw [getDollarChangesIntervalToDateByFund]
  simp only [hl2, List.mem_map, List.mem_insertionSort, List.mem_filter]
  refine ⟨⟨d, some fid, delta⟩, ⟨?_, ?_⟩, rfl⟩
  · simp [insertDollarChange, hreg]
  · simp [rowInQueryWindow, hlo, hhi]

/-- Witness for C4: insert delta 42 for the registered code "AAA" on
2021-09-04 and find it in the queried window ending 2021-09-05. -/
theorem insert_then_rangeQuery_roundtrip_witness :
    lookupFundID sampleDB "AAA" = some 1 ∧
    Date.leB (subOneYear sampleDate) ⟨2021, 9, 4⟩ = true ∧
    Date.leB ⟨2021, 9, 4⟩ sampleDate = true ∧
    (⟨⟨2021, 9, 4⟩, 42⟩ : Date × ℤ) ∈ getDollarChangesIntervalToDateByFund
        (insertDollarChange sampleDB "AAA" 42 (some ⟨2021, 9, 4⟩) sampleDate)
        sampleDate "-1 year" "AAA" :=
  ⟨by decide, by decide, by decide,
   insert_then_rangeQuery_roundtrip sampleDB sampleDate ⟨2021, 9, 4⟩
     "AAA" "-1 year" 42 1 (by decide) (by decide) (by decide)⟩

/-- Every lookup code recorded by the fetch loop names one of the
processed funds. -/
theorem runFunds_keys_subset (oracles : String → ℕ → FetchOutcome) :
    ∀ (l : List String) (res : List (String × ℤ)) (errs : List String),
      runFunds oracles l = .ok (res, errs) → ∀ p ∈ res, p.1 ∈ l := by
  intro l
  induction l with
  | nil =>
    intro res errs h p hp
    rw [runFunds] at h
    cases h
    simp at hp
  | cons c rest ih =>
    intro res errs h p hp
    rw [runFunds] at h
    cases hrr : retryFund (oracles c) <;> simp only [hrr] at h
    case recorded v =>
      cases hr2 : runFunds oracles rest with
      | ok pr =>
        obtain ⟨res', errs'⟩ := pr
        simp only [hr2, Except.ok.injEq, Prod.mk.injEq] at h
        obtain ⟨hres, _⟩ := h
        rcases List.mem_cons.mp (hres ▸ hp) with hphd | hptl
        · rw [hphd]
          exact List.mem_cons_self c rest
        · exact List.mem_cons_of_mem c (ih res' errs' hr2 p hptl)
      | error e => simp [hr2] at h
    case mismatchExhausted =>
      cases hr2 : runFunds oracles rest with
      | ok pr =>
        obtain ⟨res', errs'⟩ := pr
        simp only [hr2, Except.ok.injEq, Prod.mk.injEq] at h
        obtain ⟨hres, _⟩ := h
        exact List.mem_cons_of_mem c (ih res' errs' hr2 p (hres ▸ hp))
      | error e => simp [hr2] at h
    case fatal => cases h
    case noAttempt => exact List.mem_cons_of_mem c (ih res errs h p hp)

/-- C6: in the per-fund retry loop with ceiling `MAX_RETRIES = 3`, a fund
whose fetch raises the identity mismatch on the attempts before some
successful attempt `k < 3` gets its delta recorded and the run does not
abort; a fund whose fetch raises the mismatch on all 3 attempts has its
delta absent from the recorded results, has its error reported, and the
run continues with the remaining funds. -/
theorem retry_loop_mismatch_policy (oracles : String → ℕ → FetchOutcome)
    (c1 c2 : String) (rest : List String) (k : ℕ) (v : ℤ)
    (res : List (String × ℤ)) (errs : List String)
    (hk : k < MAX_RETRIES)
    (h1 : ∀ i, i < k → oracles c1 i = .mismatch)
    (h1s : oracles c1 k = .success v)
    (h2 : ∀ i, i < MAX_RETRIES → oracles c2 i = .mismatch)
    (hrest : runFunds oracles rest = .ok (res, errs))
    (hc : c2 ≠ c1) (hcrest : c2 ∉ rest) :
    runFunds oracles (c1 :: c2 :: rest) = .ok ((c1, v) :: res, c2 :: errs) ∧
    c2 ∉ ((c1, v) :: res).map Prod.fst := by
  have e3 : MAX_RETRIES = 2 + 1 := rfl
  have hr1 : retryFund (oracles c1) = .recorded v := by
    rw [retryFund, e3]
    rw [MAX_RETRIES] at hk
    interval_cases k
    · rw [retryGo, h1s]
    · rw [retryGo, h1 0 (by norm_num)]
      norm_num
      rw [show (2 : ℕ) = 1 + 1 from rfl, retryGo, h1s]
    · rw [retryGo, h1 0 (by norm_num)]
      norm_num
      rw [show (2 : ℕ) = 1 + 1 from rfl, retryGo, h1 1 (by norm_num)]
      norm_num
      rw [show (1 : ℕ) = 0 + 1 from rfl, retryGo, h1s]
  have hr2 : retryFund (oracles c2) = .mismatchExhausted := by
    rw [retryFund, e3, retryGo, h2 0 (by rw [e3]; norm_num)]
    norm_num
    rw [show (2 : ℕ) = 1 + 1 from rfl, retryGo, h2 1 (by rw [e3]; norm_num)]
    norm_num
    rw [show (1 : ℕ) = 0 + 1 from rfl, retryGo, h2 2 (by rw [e3]; norm_num)]
    rfl
  refine ⟨?_, ?_⟩
  · rw [runFunds, hr1, runFunds, hr2, hrest]
  · intro hmem
    simp only [List.map_cons, List.mem_cons] at hmem
    rcases hmem with h | h
    · exact hc h
    · obtain ⟨p, hp, hpc⟩ := List.mem_map.mp h
      exact hcrest (hpc ▸ runFunds_keys_subset oracles rest res errs hrest p hp)

/-- Attempt behaviours for the C6 witness: fund "AAA" mismatches twice then
succeeds with 42, fund "BBB" always mismatches, every other fund succeeds
with 7 at once. -/
def sampleOracles : String → ℕ → FetchOutcome := fun c i =>
  if c = "AAA" then (if i < 2 then .mismatch else .success 42)
  else if c = "BBB" then .mismatch
  else .success 7

/-- Witness for C6 on the manifest ["AAA", "BBB", "CCC"]. -/
theorem retry_loop_mismatch_policy_witness :
    runFunds sampleOracles ("AAA" :: "BBB" :: ["CCC"]) =
      .ok (("AAA", 42) :: [("CCC", 7)], "BBB" :: []) ∧
    "BBB" ∉ (("AAA", (42 : ℤ)) :: [("CCC", 7)]).map Prod.fst :=
  retry_loop_mismatch_policy sampleOracles "AAA" "BBB" ["CCC"] 2 42
    [("CCC", 7)] [] (by decide) (by decide) (by decide) (by decide) rfl
    (by decide) (by decide)

/-- C7: a session whose page shows the as-of date `04-Sep-2021` while the
expected date is `2021-09-05` raises `DifferentDateError`, the run exits
with that error's dedicated code -3, and no database writes have
occurred. -/
theorem different_date_dedicated_exit :
    scraperInitDateCheck "04-Sep-2021" "2021-09-05" =
      .error (.differentDate "2021-09-04" "2021-09-05") ∧
    mainSessionPhase "04-Sep-2021" "2021-09-05" = .exited (-3) [] := by
  constructor <;> rfl

/-- C9 (amended): the rendered report has one row for every calendar day in
the window's range *that has at least one fund with a record* (days with no
record for any fund are skipped, so the report is not dense), in calendar
order; each emitted row's cells are in manifest order, with a blank
(`none`) cell wherever no record exists for that fund on that day. -/
theorem reportLoop_rows (fundIDs : List String) (data : FundData)
    (today : Date) (fuel : ℕ) (d : Date) :
    (reportLoop fundIDs data today fuel d).map Prod.fst =
      (daysUpTo today fuel d).filter (isRecordForDate fundIDs data) ∧
    ∀ p ∈ reportLoop fundIDs data today fuel d,
      p.2 = reportRow fundIDs data p.1 := by
  induction fuel generalizing d with
  | zero => simp [reportLoop, daysUpTo]
  | succ fuel ih =>
    rw [reportLoop, daysUpTo]
    by_cases hle : Date.leB d today = true
    · rw [if_pos hle, if_pos hle]
      refine ⟨?_, ?_⟩
      · by_cases hrec : isRecordForDate fundIDs data d = true
        · simp [hrec, List.filter_cons, (ih (incrementDate d)).1]
        · simp [hrec, List.filter_cons, (ih (incrementDate d)).1]
      · intro p hp
        by_cases hrec : isRecordForDate fundIDs data d = true
        · rw [if_pos hrec] at hp
          rcases List.mem_cons.mp (by simpa using hp) with h | h
          · subst h
            rfl
          · exact (ih (incrementDate d)).2 p h
        · rw [if_neg hrec] at hp
          exact (ih (incrementDate d)).2 p (by simpa using hp)
    · rw [if_neg hle, if_neg hle]
      simp

/-- The per-fund data for the C9 witness and counterexample: fund "A" has
records exactly on 2020-09-05 and 2021-09-05, a year apart. -/
def gapData : FundData := [("A", [(⟨2020, 9, 5⟩, 5), (⟨2021, 9, 5⟩, 7)])]

/-- Witness for C9 over a five-day window. -/
theorem reportLoop_rows_witness :
    (reportLoop ["A"] gapData ⟨2021, 9, 5⟩ 5 ⟨2021, 9, 3⟩).map Prod.fst =
      (daysUpTo ⟨2021, 9, 5⟩ 5 ⟨2021, 9, 3⟩).filter
        (isRecordForDate ["A"] gapData) ∧
    (⟨⟨2021, 9, 5⟩, [some 7]⟩ : Date × List (Option ℤ)).2 =
      reportRow ["A"] gapData
        (⟨⟨2021, 9, 5⟩, [some 7]⟩ : Date × List (Option ℤ)).1 :=
  ⟨(reportLoop_rows ["A"] gapData ⟨2021, 9, 5⟩ 5 ⟨2021, 9, 3⟩).1,
   (reportLoop_rows ["A"] gapData ⟨2021, 9, 5⟩ 5 ⟨2021, 9, 3⟩).2
     (⟨2021, 9, 5⟩, [some 7]) (by decide)⟩

set_option maxRecDepth 40000 in
/-- Counterexample to C9 as stated: over the one-year window ending
2021-09-05 the loop emits rows only for the two days that have a record;
2021-09-04 lies in the window's range yet gets no row, so the report does
not contain one row for every calendar day in the range. -/
theorem report_not_dense :
    (⟨2021, 9, 4⟩ : Date) ∈
      daysUpTo ⟨2021, 9, 5⟩ 366 (subOneYear ⟨2021, 9, 5⟩) ∧
    (reportLoop ["A"] gapData ⟨2021, 9, 5⟩ 366
        (subOneYear ⟨2021, 9, 5⟩)).map Prod.fst =
      [⟨2020, 9, 5⟩, ⟨2021, 9, 5⟩] ∧
    (⟨2021, 9, 4⟩ : Date) ∉
      (reportLoop ["A"] gapData ⟨2021, 9, 5⟩ 366
        (subOneYear ⟨2021, 9, 5⟩)).map Prod.fst := by
  decide

end Fidelity
